import Mathlib

/-!
# Verification of the RISC-V debug 0.13 DTM/DMI engine

This development gives a shallow embedding of the core of the Black Magic
RISC-V External Debug Support (v0.13) driver and proves properties of its
DMI retry protocol, program-buffer layer and capability negotiation.

The embedding models the JTAG adapter as an oracle: a list of response
values, one consumed per DR shift of the DMI register (`rvdbg_dmi_low_access_jtag`),
respectively one per DMI register operation at the `rvdbg_dmi_read` /
`rvdbg_dmi_write` layer.  Every modeled function additionally returns the
trace of adapter / DMI operations it issued, so that statements about
"what was shifted / written" can be made precise.  A result of `none`
means the oracle list was exhausted (the C code would keep spinning); all
claims are conditioned on a `some` result.
-/

/-- Actions issued to the JTAG TAP adapter, as performed by
`rvdbg_dmi_reset_jtag` and `rvdbg_dmi_low_access_jtag`. -/
inductive JtagAct where
  | write_ir (ir : Nat)
  | shift_dr (nbits : Nat) (payload : Nat)
  | tms_seq (pattern cycles : Nat)
deriving Repr, DecidableEq

/-- Embedding of `rvdbg_dmi_reset_jtag` (rvdbg013_jtag.c): write `IR_DTMCS`
(0x10), shift 32 DR bits carrying `DTMCS_DMIHARDRESET` (0x20000) or
`DTMCS_DMIRESET` (0x10000), then restore `IR_DMI` (0x11).  The readback of
the 32-bit shift is discarded by the source. -/
def rvdbg_dmi_reset_jtag_acts (hard_reset : Bool) : List JtagAct :=
  [JtagAct.write_ir 0x10,
   JtagAct.shift_dr 32 (if hard_reset then 0x20000 else 0x10000),
   JtagAct.write_ir 0x11]

/-- Result of one call of `rvdbg_dmi_low_access_jtag`: the returned int
(0 or -1), the value that would be stored through `dmi_data_out`
(`dmi_ret >> 2`, truncated to 32 bits; 0 when the call failed before
reaching that line), the final value of the sticky `last_dmi` field, and
the sequence of adapter actions issued. -/
structure LowAccessResult where
  ret : Int
  dataOut : Nat
  last_dmi : Nat
  acts : List JtagAct
deriving Repr, DecidableEq

/-- Embedding of `rvdbg_dmi_low_access_jtag`.  `abits`, `idle` are the DTM
config fields; `dmi_cmd` the 64-bit payload to shift; `last_dmi` the stored
previously-committed payload.  The oracle list supplies the `dmi_ret`
value of each DR shift of the DMI register (the replay shift of `last_dmi`
also consumes one response; its value is discarded, as in the source).
Per the source switch on `DMI_GET_OP(dmi_ret)`:
op 3 (interrupted) soft-resets via `IR_DTMCS`, restores `IR_DMI`, re-shifts
`last_dmi`, idles `idle - 1` TMS=0 cycles when `idle >= 2` and retries;
op 0 commits `last_dmi := dmi_cmd` and returns 0; anything else resets and
returns -1. -/
def rvdbg_dmi_low_access_jtag (abits idle dmi_cmd last_dmi : Nat) :
    List Nat → Option LowAccessResult
  | [] => none
  | dmi_ret :: rest =>
    let shiftAct := JtagAct.shift_dr (34 + abits) dmi_cmd
    let op := dmi_ret &&& 0x3
    if op = 3 then
      match rest with
      | [] => none
      | _replay_ret :: rest2 =>
        match rvdbg_dmi_low_access_jtag abits idle dmi_cmd last_dmi rest2 with
        | none => none
        | some res =>
          some { res with acts :=
            shiftAct ::
            (rvdbg_dmi_reset_jtag_acts false ++
             [JtagAct.shift_dr (34 + abits) last_dmi] ++
             (if 2 ≤ idle then [JtagAct.tms_seq 0 (idle - 1)] else []) ++
             res.acts) }
    else if op = 0 then
      some { ret := 0, dataOut := (dmi_ret >>> 2) % 2 ^ 32, last_dmi := dmi_cmd,
             acts := [shiftAct] }
    else
      some { ret := -1, dataOut := 0, last_dmi := last_dmi,
             acts := shiftAct :: rvdbg_dmi_reset_jtag_acts false }

/-- Embedding of the payload expression of `rvdbg_dmi_write`:
`((uint64_t)addr << DMI_BASE_BIT_COUNT) | (data << 2) | DMI_OP_WRITE` with
`addr`, `data : uint32_t`.  The sub-expression `data << 2` is evaluated in
32-bit unsigned arithmetic (no widening cast in the source), so it is
reduced mod 2^32 before being OR-ed into the 64-bit value. -/
def rvdbg_dmi_write_payload (addr data : Nat) : Nat :=
  (((addr % 2 ^ 32) <<< 34) % 2 ^ 64) ||| (((data % 2 ^ 32) <<< 2) % 2 ^ 32) ||| 2

/-- Embedding of `rvdbg_dmi_write` at the JTAG transport: one low access
with the write payload and no data out. -/
def rvdbg_dmi_write_jtag (abits idle addr data last_dmi : Nat)
    (resps : List Nat) : Option LowAccessResult :=
  rvdbg_dmi_low_access_jtag abits idle (rvdbg_dmi_write_payload addr data) last_dmi resps

/-- Helper: every value returned by `rvdbg_dmi_low_access_jtag` has
`ret = 0` or `ret = -1`; the interrupted status (3) is retried internally
and never surfaced. -/
theorem low_access_ret_cases (abits idle dmi_cmd last_dmi : Nat) :
    ∀ (resps : List Nat) (res : LowAccessResult),
      rvdbg_dmi_low_access_jtag abits idle dmi_cmd last_dmi resps = some res →
      res.ret = 0 ∨ res.ret = -1 := by
  have key : ∀ (n : Nat) (resps : List Nat), resps.length ≤ n →
      ∀ (res : LowAccessResult),
        rvdbg_dmi_low_access_jtag abits idle dmi_cmd last_dmi resps = some res →
        res.ret = 0 ∨ res.ret = -1 := by
    intro n
    induction n with
    | zero =>
      intro resps hlen res h
      cases resps with
      | nil => simp [rvdbg_dmi_low_access_jtag] at h
      | cons a t => simp at hlen
    | succ n ih =>
      intro resps hlen res h
      cases resps with
      | nil => simp [rvdbg_dmi_low_access_jtag] at h
      | cons dmi_ret rest =>
        rw [rvdbg_dmi_low_access_jtag.eq_def] at h
        simp only at h
        split at h
        · split at h
          · simp at h
          · rename_i r2 rest2
            split at h
            · simp at h
            · rename_i res' hrec
              simp only [Option.some.injEq] at h
              have hret : res.ret = res'.ret := by rw [← h]
              rw [hret]
              refine ih rest2 ?_ res' hrec
              simp only [List.length_cons] at hlen
              omega
        · split at h
          · simp only [Option.some.injEq] at h
            left; rw [← h]
          · simp only [Option.some.injEq] at h
            right; rw [← h]
  intro resps
  exact key resps.length resps (Nat.le_refl _)

/-- Helper: the sticky `last_dmi` field after a low access equals `dmi_cmd`
when the call returned success, and is unchanged when it returned -1. -/
theorem low_access_last_dmi_spec (abits idle dmi_cmd last_dmi : Nat) :
    ∀ (resps : List Nat) (res : LowAccessResult),
      rvdbg_dmi_low_access_jtag abits idle dmi_cmd last_dmi resps = some res →
      (res.ret = 0 → res.last_dmi = dmi_cmd) ∧ (res.ret ≠ 0 → res.last_dmi = last_dmi) := by
  have key : ∀ (n : Nat) (resps : List Nat), resps.length ≤ n →
      ∀ (res : LowAccessResult),
        rvdbg_dmi_low_access_jtag abits idle dmi_cmd last_dmi resps = some res →
        (res.ret = 0 → res.last_dmi = dmi_cmd) ∧ (res.ret ≠ 0 → res.last_dmi = last_dmi) := by
    intro n
    induction n with
    | zero =>
      intro resps hlen res h
      cases resps with
      | nil => simp [rvdbg_dmi_low_access_jtag] at h
      | cons a t => simp at hlen
    | succ n ih =>
      intro resps hlen res h
      cases resps with
      | nil => simp [rvdbg_dmi_low_access_jtag] at h
      | cons dmi_ret rest =>
        rw [rvdbg_dmi_low_access_jtag.eq_def] at h
        simp only at h
        split at h
        · split at h
          · simp at h
          · rename_i r2 rest2
            split at h
            · simp at h
            · rename_i res' hrec
              simp only [Option.some.injEq] at h
              have hret : res.ret = res'.ret := by rw [← h]
              have hlast : res.last_dmi = res'.last_dmi := by rw [← h]
              rw [hret, hlast]
              refine ih rest2 ?_ res' hrec
              simp only [List.length_cons] at hlen
              omega
        · split at h
          · simp only [Option.some.injEq] at h
            constructor
            · intro _; rw [← h]
            · intro hne; exfalso; apply hne; rw [← h]
          · simp only [Option.some.injEq] at h
            constructor
            · intro h0; exfalso
              have hm1 : res.ret = -1 := by rw [← h]
              rw [hm1] at h0
              exact absurd h0 (by decide)
            · intro _; rw [← h]
  intro resps
  exact key resps.length resps (Nat.le_refl _)

/-- C1: a DMI low access that receives an op=interrupted (3) response
issues a soft dmireset via IR_DTMCS, restores IR to IR_DMI, re-shifts the
stored `last_dmi` payload, inserts `idle - 1` TMS=0 cycles when
`idle >= 2`, and retries the original payload; moreover the function never
returns an interrupted status to its caller (every returned code is 0 or
-1). -/
theorem dmi_low_access_interrupted_retry_protocol
    (abits idle dmi_cmd last_dmi dmi_ret r2 : Nat) (rest2 : List Nat)
    (hop : dmi_ret &&& 0x3 = 3) :
    rvdbg_dmi_low_access_jtag abits idle dmi_cmd last_dmi (dmi_ret :: r2 :: rest2) =
      (match rvdbg_dmi_low_access_jtag abits idle dmi_cmd last_dmi rest2 with
       | none => none
       | some res =>
         some { res with acts :=
           JtagAct.shift_dr (34 + abits) dmi_cmd ::
           (rvdbg_dmi_reset_jtag_acts false ++
            [JtagAct.shift_dr (34 + abits) last_dmi] ++
            (if 2 ≤ idle then [JtagAct.tms_seq 0 (idle - 1)] else []) ++
            res.acts) })
    ∧ ∀ (resps : List Nat) (res : LowAccessResult),
        rvdbg_dmi_low_access_jtag abits idle dmi_cmd last_dmi resps = some res →
        res.ret = 0 ∨ res.ret = -1 := by
  constructor
  · rw [rvdbg_dmi_low_access_jtag, if_pos hop]
  · exact low_access_ret_cases abits idle dmi_cmd last_dmi

/-- Witness for C1 at a concrete input: an interrupted response followed by
a success replays `last_dmi` with the full protocol and then succeeds. -/
theorem dmi_low_access_interrupted_retry_protocol_witness :
    (0x7 &&& 0x3 = 3) ∧
    rvdbg_dmi_low_access_jtag 7 7 5 9 [0x7, 0, 4] =
      some { ret := 0, dataOut := 1, last_dmi := 5,
             acts := [JtagAct.shift_dr 41 5, JtagAct.write_ir 0x10,
                      JtagAct.shift_dr 32 0x10000, JtagAct.write_ir 0x11,
                      JtagAct.shift_dr 41 9, JtagAct.tms_seq 0 6,
                      JtagAct.shift_dr 41 5] } := by
  refine ⟨by decide, ?_⟩
  rw [(dmi_low_access_interrupted_retry_protocol 7 7 5 9 0x7 0 [4] (by decide)).1]
  decide

/-- C2: for every DMI low access that returns success (0), the stored
`last_dmi` equals the exact `dmi_cmd` payload just shifted; on any other
outcome `last_dmi` is unchanged, so it is updated only on a no-error
response. -/
theorem dmi_low_access_last_dmi_update
    (abits idle dmi_cmd last_dmi : Nat) (resps : List Nat) (res : LowAccessResult)
    (h : rvdbg_dmi_low_access_jtag abits idle dmi_cmd last_dmi resps = some res) :
    (res.ret = 0 → res.last_dmi = dmi_cmd) ∧ (res.ret ≠ 0 → res.last_dmi = last_dmi) :=
  low_access_last_dmi_spec abits idle dmi_cmd last_dmi resps res h

/-- Witness for C2 at a concrete input: a single no-error response commits
`last_dmi := dmi_cmd`. -/
theorem dmi_low_access_last_dmi_update_witness :
    ({ ret := 0, dataOut := 1, last_dmi := 5,
       acts := [JtagAct.shift_dr 34 5] } : LowAccessResult).last_dmi = 5 :=
  (dmi_low_access_last_dmi_update 0 0 5 9 [4]
    { ret := 0, dataOut := 1, last_dmi := 5, acts := [JtagAct.shift_dr 34 5] }
    (by decide)).1 (by decide)

/-- C3 (code bug): the payload built by `rvdbg_dmi_write` drops the top
two data bits because `data << 2` is computed in 32-bit arithmetic.  At
`addr = 0`, `data = 0x80000000` the payload collapses to just the op bits
(2), whereas the claimed layout `[address:abits][data:32][op:2]` would put
data bit 31 at payload bit 33 (payload 0x200000002). -/
theorem dmi_write_payload_drops_high_data_bits :
    rvdbg_dmi_write_payload 0 0x80000000 = 2 ∧
    Nat.testBit 0x80000000 31 = true ∧
    Nat.testBit (rvdbg_dmi_write_payload 0 0x80000000) 33 = false ∧
    rvdbg_dmi_write_payload 0 0x80000000 ≠ 0x200000002 := by
  refine ⟨by decide, by decide, ?_, by decide⟩
  have h : rvdbg_dmi_write_payload 0 0x80000000 = 2 := by decide
  rw [h]
  decide

/-- Response of the DMI engine to one register-level operation
(`rvdbg_dmi_read` / `rvdbg_dmi_write`): either the operation committed
(carrying the 32-bit readback value, meaningful for reads) or the
underlying low access failed with -1. -/
inductive DmiResp where
  | ok (value : Nat)
  | fail
deriving Repr, DecidableEq

/-- Register-level DMI operations issued by the engine, recorded as a
trace: `write addr data` for `rvdbg_dmi_write(dmi, addr, data)` and
`read addr` for `rvdbg_dmi_read(dmi, addr, &data)`. -/
inductive DmiEv where
  | write (addr data : Nat)
  | read (addr : Nat)
deriving Repr, DecidableEq

/-- Address field of a recorded DMI operation. -/
def DmiEv.evAddr : DmiEv → Nat
  | .write a _ => a
  | .read a => a

/-- Embedding of `rvdbg_dmi_write` at the register level: consumes one
oracle response, emits the write event (data truncated to 32 bits), and
returns 0 on success or -1 when the low access failed. -/
def rvdbg_dmi_write (addr data : Nat) :
    List DmiResp → Option (Int × List DmiResp × List DmiEv)
  | [] => none
  | DmiResp.ok _ :: rest => some (0, rest, [DmiEv.write addr (data % 2 ^ 32)])
  | DmiResp.fail :: rest => some (-1, rest, [DmiEv.write addr (data % 2 ^ 32)])

/-- Embedding of `rvdbg_dmi_read`: the two low accesses (READ then NOP)
are collapsed into one oracle response carrying the readback value, since
claims at this layer count register operations, not scans.  Returns
(result, value, remaining oracle, trace); the value is 0 on failure (the
source leaves the out-parameter unwritten and callers test the result). -/
def rvdbg_dmi_read (addr : Nat) :
    List DmiResp → Option (Int × Nat × List DmiResp × List DmiEv)
  | [] => none
  | DmiResp.ok v :: rest => some (0, v % 2 ^ 32, rest, [DmiEv.read addr])
  | DmiResp.fail :: rest => some (-1, 0, rest, [DmiEv.read addr])

/-- Embedding of the `ABSTRACTCMD_SET_TYPE` macro (32-bit clear of bits
31..24, then or-in). -/
def ABSTRACTCMD_SET_TYPE (t s : Nat) : Nat :=
  (t &&& (0xFFFFFFFF ^^^ (0xFF <<< 24))) ||| ((s &&& 0xFF) <<< 24)

/-- Embedding of `ABSTRACTCMD_ACCESS_REGISTER_SET_AARSIZE` (bits 22..20). -/
def ABSTRACTCMD_ACCESS_REGISTER_SET_AARSIZE (t s : Nat) : Nat :=
  (t &&& (0xFFFFFFFF ^^^ (0x7 <<< 20))) ||| ((s &&& 0x7) <<< 20)

/-- Embedding of `ABSTRACTCMD_ACCESS_REGISTER_SET_AARPOSTINCREMENT` (bit 19). -/
def ABSTRACTCMD_ACCESS_REGISTER_SET_AARPOSTINCREMENT (t s : Nat) : Nat :=
  (t &&& (0xFFFFFFFF ^^^ (0x1 <<< 19))) ||| ((s &&& 0x1) <<< 19)

/-- Embedding of `ABSTRACTCMD_ACCESS_REGISTER_SET_POSTEXEC` (bit 18). -/
def ABSTRACTCMD_ACCESS_REGISTER_SET_POSTEXEC (t s : Nat) : Nat :=
  (t &&& (0xFFFFFFFF ^^^ (0x1 <<< 18))) ||| ((s &&& 0x1) <<< 18)

/-- Embedding of `ABSTRACTCMD_ACCESS_REGISTER_SET_TRANSFER` (bit 17). -/
def ABSTRACTCMD_ACCESS_REGISTER_SET_TRANSFER (t s : Nat) : Nat :=
  (t &&& (0xFFFFFFFF ^^^ (0x1 <<< 17))) ||| ((s &&& 0x1) <<< 17)

/-- Embedding of `ABSTRACTCMD_ACCESS_REGISTER_SET_WRITE` (bit 16). -/
def ABSTRACTCMD_ACCESS_REGISTER_SET_WRITE (t s : Nat) : Nat :=
  (t &&& (0xFFFFFFFF ^^^ (0x1 <<< 16))) ||| ((s &&& 0x1) <<< 16)

/-- Embedding of `ABSTRACTCMD_ACCESS_REGISTER_SET_REGNO` (bits 15..0). -/
def ABSTRACTCMD_ACCESS_REGISTER_SET_REGNO (t s : Nat) : Nat :=
  (t &&& (0xFFFFFFFF ^^^ 0xFFFF)) ||| (s &&& 0xFFFF)

/-- Embedding of `ABSTRACTAUTO_SET_DATA` (bits 11..0 of `abstractauto`). -/
def ABSTRACTAUTO_SET_DATA (t s : Nat) : Nat :=
  (t &&& (0xFFFFFFFF ^^^ 0xFFF)) ||| (s &&& 0xFFF)

/-- Embedding of the `do { read abstractcs } while (busy)` poll loop used
by `rvdbg_abstract_command_run` and the autoexec cont paths: reads DMI
register 0x16 until bit 12 (busy) is clear; a failed read aborts with -1.
Returns (result, final abstractcs value, remaining oracle, trace). -/
def rvdbg_wait_abstractcs :
    List DmiResp → Option (Int × Nat × List DmiResp × List DmiEv)
  | [] => none
  | DmiResp.fail :: rest => some (-1, 0, rest, [DmiEv.read 0x16])
  | DmiResp.ok v :: rest =>
    if ((v % 2 ^ 32) >>> 12) &&& 0x1 = 1 then
      match rvdbg_wait_abstractcs rest with
      | none => none
      | some (r, cs, rest2, tr) => some (r, cs, rest2, DmiEv.read 0x16 :: tr)
    else
      some (0, v % 2 ^ 32, rest, [DmiEv.read 0x16])

/-- Embedding of `enum AUTOEXEC_STATE` from the source. -/
inductive AUTOEXEC_STATE where
  | NONE
  | INIT
  | CONT
deriving Repr, DecidableEq

/-- Fuel-indexed body of `rvdbg_abstract_command_run`: write the command
word to `DMI_REG_ABSTRACT_CMD` (0x17), poll `abstractcs` until not busy,
extract `cmderr` (bits 10..8); when non-zero, clear it by writing
`0x7 << 8` to `abstractcs` (0x16) and retry on `ERR_BUSY` (1); other
cmderr codes are returned positively, DMI failures as -1.  The fuel bounds
the `goto retry` loop; since each retry consumes at least three oracle
responses, `oracle.length + 1` fuel (supplied by the wrapper) never runs
out before the oracle does. -/
def rvdbg_abstract_command_run_go (command : Nat) :
    Nat → List DmiResp → Option (Int × List DmiResp × List DmiEv)
  | 0, _ => none
  | fuel + 1, oracle =>
    match rvdbg_dmi_write 0x17 command oracle with
    | none => none
    | some (r1, or1, tr1) =>
      if r1 < 0 then some (-1, or1, tr1)
      else
        match rvdbg_wait_abstractcs or1 with
        | none => none
        | some (r2, cs, or2, tr2) =>
          if r2 < 0 then some (-1, or2, tr1 ++ tr2)
          else
            let cmderror := (cs >>> 8) &&& 0x7
            if cmderror ≠ 0 then
              match rvdbg_dmi_write 0x16 (0x7 <<< 8) or2 with
              | none => none
              | some (r3, or3, tr3) =>
                if r3 < 0 then some (-1, or3, tr1 ++ tr2 ++ tr3)
                else
                  if cmderror = 1 then
                    match rvdbg_abstract_command_run_go command fuel or3 with
                    | none => none
                    | some (r4, or4, tr4) => some (r4, or4, tr1 ++ tr2 ++ tr3 ++ tr4)
                  else some ((cmderror : Int), or3, tr1 ++ tr2 ++ tr3)
            else some (0, or2, tr1 ++ tr2)

/-- Embedding of `rvdbg_abstract_command_run` (negative error or positive
cmderror). -/
def rvdbg_abstract_command_run (command : Nat) (oracle : List DmiResp) :
    Option (Int × List DmiResp × List DmiEv) :=
  rvdbg_abstract_command_run_go command (oracle.length + 1) oracle

/-- Shared tail of `rvdbg_read_single_reg`: read `data0` (0x04); in
autoexec-cont state additionally poll `abstractcs` until not busy, since
the implicit re-execution is not guarded by `rvdbg_abstract_command_run`. -/
def rvdbg_read_single_reg_tail (astate : AUTOEXEC_STATE) (oracle : List DmiResp) :
    Option (Int × Nat × List DmiResp × List DmiEv) :=
  match rvdbg_dmi_read 0x04 oracle with
  | none => none
  | some (r, v, or1, tr1) =>
    if r < 0 then some (-1, v, or1, tr1)
    else
      if astate = AUTOEXEC_STATE.CONT then
        match rvdbg_wait_abstractcs or1 with
        | none => none
        | some (r2, _, or2, tr2) =>
          some ((if r2 < 0 then -1 else 0), v, or2, tr1 ++ tr2)
      else some (0, v, or1, tr1)

/-- Embedding of `rvdbg_read_single_reg`.  The abstract command word is
built exactly as in the source (`access register`, aarsize 32-bit,
transfer, regno, postincrement iff INIT state); the command is only
submitted when not in cont state, and a non-NONE cmderr (exception or any
other) is collapsed to -1 by the source's switch. -/
def rvdbg_read_single_reg (reg_idx : Nat) (astate : AUTOEXEC_STATE)
    (oracle : List DmiResp) : Option (Int × Nat × List DmiResp × List DmiEv) :=
  let command := ABSTRACTCMD_SET_TYPE 0 0x0
  let command := ABSTRACTCMD_ACCESS_REGISTER_SET_AARSIZE command 0x2
  let command := ABSTRACTCMD_ACCESS_REGISTER_SET_TRANSFER command 1
  let command := ABSTRACTCMD_ACCESS_REGISTER_SET_REGNO command reg_idx
  let command := ABSTRACTCMD_ACCESS_REGISTER_SET_AARPOSTINCREMENT command
    (if astate = AUTOEXEC_STATE.INIT then 1 else 0)
  if astate = AUTOEXEC_STATE.CONT then
    rvdbg_read_single_reg_tail astate oracle
  else
    match rvdbg_abstract_command_run command oracle with
    | none => none
    | some (ret, or1, tr1) =>
      if ret < 0 then some (-1, 0, or1, tr1)
      else if ret = 0 then
        match rvdbg_read_single_reg_tail astate or1 with
        | none => none
        | some (r, v, or2, tr2) => some (r, v, or2, tr1 ++ tr2)
      else some (-1, 0, or1, tr1)

/-- Embedding of `rvdbg_write_single_reg`: write the value to `data0`
(0x04) first; then either submit the abstract command (non-cont states,
with write bit set and the same error collapsing) or poll `abstractcs`
until the implicitly re-executed command finished (cont state). -/
def rvdbg_write_single_reg (reg_id value : Nat) (astate : AUTOEXEC_STATE)
    (oracle : List DmiResp) : Option (Int × List DmiResp × List DmiEv) :=
  match rvdbg_dmi_write 0x04 value oracle with
  | none => none
  | some (r0, or0, tr0) =>
    if r0 < 0 then some (-1, or0, tr0)
    else
      let command := ABSTRACTCMD_SET_TYPE 0 0x0
      let command := ABSTRACTCMD_ACCESS_REGISTER_SET_AARSIZE command 0x2
      let command := ABSTRACTCMD_ACCESS_REGISTER_SET_TRANSFER command 1
      let command := ABSTRACTCMD_ACCESS_REGISTER_SET_WRITE command 1
      let command := ABSTRACTCMD_ACCESS_REGISTER_SET_REGNO command reg_id
      let command := ABSTRACTCMD_ACCESS_REGISTER_SET_AARPOSTINCREMENT command
        (if astate = AUTOEXEC_STATE.INIT then 1 else 0)
      if astate = AUTOEXEC_STATE.CONT then
        match rvdbg_wait_abstractcs or0 with
        | none => none
        | some (r1, _, or1, tr1) =>
          some ((if r1 < 0 then -1 else 0), or1, tr0 ++ tr1)
      else
        match rvdbg_abstract_command_run command or0 with
        | none => none
        | some (ret, or1, tr1) =>
          if ret < 0 then some (-1, or1, tr0 ++ tr1)
          else if ret = 0 then some (0, or1, tr0 ++ tr1)
          else some (-1, or1, tr0 ++ tr1)

/-- Loop of `rvdbg_read_regs`: for `i` in `[i0, i0 + fuel)` read register
`reg_id + i` with the current autoexec state, collecting the values; a
failing single access sets the error and breaks; after the first INIT
iteration the state moves to CONT.  Returns (err, values, final astate,
remaining oracle, trace). -/
def rvdbg_read_regs_loop (reg_id : Nat) :
    Nat → Nat → AUTOEXEC_STATE → List DmiResp →
    Option (Int × List Nat × AUTOEXEC_STATE × List DmiResp × List DmiEv)
  | 0, _, astate, oracle => some (0, [], astate, oracle, [])
  | fuel + 1, i, astate, oracle =>
    match rvdbg_read_single_reg (reg_id + i) astate oracle with
    | none => none
    | some (r, v, or1, tr1) =>
      if r < 0 then some (-1, [], astate, or1, tr1)
      else
        let astate2 := if astate = AUTOEXEC_STATE.INIT then AUTOEXEC_STATE.CONT else astate
        match rvdbg_read_regs_loop reg_id fuel (i + 1) astate2 or1 with
        | none => none
        | some (r2, vs, aEnd, or2, tr2) => some (r2, v :: vs, aEnd, or2, tr1 ++ tr2)

/-- Post-loop part of `rvdbg_read_regs`: when the loop finished in a
non-NONE autoexec state, disarm `abstractauto` (register 0x18, data 0);
a failing disarm write turns the result into -1. -/
def rvdbg_read_regs_main (reg_id len : Nat) (astate0 : AUTOEXEC_STATE)
    (oracle : List DmiResp) (tr0 : List DmiEv) :
    Option (Int × List Nat × List DmiResp × List DmiEv) :=
  match rvdbg_read_regs_loop reg_id len 0 astate0 oracle with
  | none => none
  | some (r1, vs, aEnd, or1, tr1) =>
    if aEnd ≠ AUTOEXEC_STATE.NONE then
      match rvdbg_dmi_write 0x18 (ABSTRACTAUTO_SET_DATA 0 0) or1 with
      | none => none
      | some (r2, or2, tr2) =>
        some ((if r2 < 0 then -1 else r1), vs, or2, tr0 ++ tr1 ++ tr2)
    else some (r1, vs, or1, tr0 ++ tr1)

/-- Embedding of `rvdbg_read_regs`: when more than one register is read
and the target supports `autoexecdata`, arm `abstractauto` with the pattern
0b101010101010 first and run the loop in INIT state, else in NONE state. -/
def rvdbg_read_regs (support_autoexecdata : Bool) (reg_id len : Nat)
    (oracle : List DmiResp) :
    Option (Int × List Nat × List DmiResp × List DmiEv) :=
  if 1 < len ∧ support_autoexecdata = true then
    match rvdbg_dmi_write 0x18 (ABSTRACTAUTO_SET_DATA 0 0xAAA) oracle with
    | none => none
    | some (r0, or0, tr0) =>
      if r0 < 0 then some (-1, [], or0, tr0)
      else rvdbg_read_regs_main reg_id len AUTOEXEC_STATE.INIT or0 tr0
  else rvdbg_read_regs_main reg_id len AUTOEXEC_STATE.NONE oracle []

/-- Loop of `rvdbg_write_regs`, mirroring `rvdbg_read_regs_loop` with the
values supplied as a function of the loop index. -/
def rvdbg_write_regs_loop (reg_id : Nat) (values : Nat → Nat) :
    Nat → Nat → AUTOEXEC_STATE → List DmiResp →
    Option (Int × AUTOEXEC_STATE × List DmiResp × List DmiEv)
  | 0, _, astate, oracle => some (0, astate, oracle, [])
  | fuel + 1, i, astate, oracle =>
    match rvdbg_write_single_reg (reg_id + i) (values i) astate oracle with
    | none => none
    | some (r, or1, tr1) =>
      if r < 0 then some (-1, astate, or1, tr1)
      else
        let astate2 := if astate = AUTOEXEC_STATE.INIT then AUTOEXEC_STATE.CONT else astate
        match rvdbg_write_regs_loop reg_id values fuel (i + 1) astate2 or1 with
        | none => none
        | some (r2, aEnd, or2, tr2) => some (r2, aEnd, or2, tr1 ++ tr2)

/-- Post-loop part of `rvdbg_write_regs` (disarm as in the read path). -/
def rvdbg_write_regs_main (reg_id : Nat) (values : Nat → Nat) (len : Nat)
    (astate0 : AUTOEXEC_STATE) (oracle : List DmiResp) (tr0 : List DmiEv) :
    Option (Int × List DmiResp × List DmiEv) :=
  match rvdbg_write_regs_loop reg_id values len 0 astate0 oracle with
  | none => none
  | some (r1, aEnd, or1, tr1) =>
    if aEnd ≠ AUTOEXEC_STATE.NONE then
      match rvdbg_dmi_write 0x18 (ABSTRACTAUTO_SET_DATA 0 0) or1 with
      | none => none
      | some (r2, or2, tr2) =>
        some ((if r2 < 0 then -1 else r1), or2, tr0 ++ tr1 ++ tr2)
    else some (r1, or1, tr0 ++ tr1)

/-- Embedding of `rvdbg_write_regs`. -/
def rvdbg_write_regs (support_autoexecdata : Bool) (reg_id : Nat)
    (values : Nat → Nat) (len : Nat) (oracle : List DmiResp) :
    Option (Int × List DmiResp × List DmiEv) :=
  if 1 < len ∧ support_autoexecdata = true then
    match rvdbg_dmi_write 0x18 (ABSTRACTAUTO_SET_DATA 0 0xAAA) oracle with
    | none => none
    | some (r0, or0, tr0) =>
      if r0 < 0 then some (-1, or0, tr0)
      else rvdbg_write_regs_main reg_id values len AUTOEXEC_STATE.INIT or0 tr0
  else rvdbg_write_regs_main reg_id values len AUTOEXEC_STATE.NONE oracle []

/-- Upload loop of `rvdbg_progbuf_upload`.  The source iterates
`for (i = DMI_REG_PROGRAMBUF_BEGIN; i < buffer_len; i++)`, i.e. the index
starts at 0x20 (not 0); the caller passes `i0 = 0x20` and
`fuel = buffer_len - 0x20` (natural subtraction), so for every
`buffer_len <= 0x20` the loop body never runs.  Each iteration writes
`buffer[i]` to DMI register `0x20 + i`. -/
def rvdbg_progbuf_upload_loop (buffer : Nat → Nat) :
    Nat → Nat → List DmiResp → Option (Int × List DmiResp × List DmiEv)
  | 0, _, oracle => some (0, oracle, [])
  | fuel + 1, i, oracle =>
    match rvdbg_dmi_write (0x20 + i) (buffer i) oracle with
    | none => none
    | some (r, or1, tr1) =>
      if r < 0 then some (-1, or1, tr1)
      else
        match rvdbg_progbuf_upload_loop buffer fuel (i + 1) or1 with
        | none => none
        | some (r2, or2, tr2) => some (r2, or2, tr1 ++ tr2)

/-- Embedding of `rvdbg_progbuf_upload`.  The guard
`buffer_len > dmi->progbuf_size + dmi->impebreak ? 1 : 0` parses as
`(buffer_len > progbuf_size + (int)impebreak) ? 1 : 0`; since `impebreak`
is a bool promoted to 0/1, the condition is equivalent to
`buffer_len > progbuf_size + (impebreak ? 1 : 0)`. -/
def rvdbg_progbuf_upload (progbuf_size : Nat) (impebreak : Bool)
    (buffer : Nat → Nat) (buffer_len : Nat) (oracle : List DmiResp) :
    Option (Int × List DmiResp × List DmiEv) :=
  if progbuf_size + (if impebreak then 1 else 0) < buffer_len then
    some (-1, oracle, [])
  else rvdbg_progbuf_upload_loop buffer (buffer_len - 0x20) 0x20 oracle

/-- Embedding of `rvdbg_progbuf_exec`.  The command word carries
`access register` type and `postexec`; `backup_len = max(argin, argout)`
is rejected above 31; the current hart's GPRs x1.. are read into the
backup buffer and the input arguments written; then the command is run.
The source's cmderr switch returns -1 in the `ABSTRACTCMD_ERR_EXCEPTION`
case and in the default case, i.e. on every non-negative cmderr including
NONE (0); the result-copy and register-restore code below that switch is
unreachable and therefore does not appear in this embedding. -/
def rvdbg_progbuf_exec (support_autoexecdata : Bool) (args : Nat → Nat)
    (argin_len argout_len : Nat) (oracle : List DmiResp) :
    Option (Int × List Nat × List DmiResp × List DmiEv) :=
  let command := ABSTRACTCMD_SET_TYPE 0 0x0
  let command := ABSTRACTCMD_ACCESS_REGISTER_SET_POSTEXEC command 1
  let backup_len := max argin_len argout_len
  if 31 < backup_len then some (-1, [], oracle, [])
  else
    match rvdbg_read_regs support_autoexecdata (0x1000 + 1) backup_len oracle with
    | none => none
    | some (r1, backup_vals, or1, tr1) =>
      if r1 < 0 then some (-1, backup_vals, or1, tr1)
      else
        match rvdbg_write_regs support_autoexecdata (0x1000 + 1) args argin_len or1 with
        | none => none
        | some (r2, or2, tr2) =>
          if r2 < 0 then some (-1, backup_vals, or2, tr1 ++ tr2)
          else
            match rvdbg_abstract_command_run command or2 with
            | none => none
            | some (ret, or3, tr3) =>
              if ret < 0 then some (-1, backup_vals, or3, tr1 ++ tr2 ++ tr3)
              else
                if ret = 3 then some (-1, backup_vals, or3, tr1 ++ tr2 ++ tr3)
                else some (-1, backup_vals, or3, tr1 ++ tr2 ++ tr3)

/-- Capability-relevant fields of the `RVDBGv013_DMI_t` handle, as mutated
by `rvdbg_select_mem_and_csr_access_impl`.  `read_csr_set` models whether
the `read_csr` function pointer has been installed (calloc leaves it
unset). -/
structure RVHandle where
  impebreak : Bool
  progbuf_size : Nat
  abstract_data_count : Nat
  read_csr_set : Bool
  support_autoexecdata : Bool
deriving Repr, DecidableEq

/-- Embedding of `rvdbg_select_mem_and_csr_access_impl`: read `abstractcs`
(0x16), extract `progbufsize` (bits 28..24) and `datacount` (bits 3..0),
reject datacount outside 1..12, progbufsize above 16, and progbufsize 1
without `impebreak`; install the progbuf `read_csr` implementation when
progbufsize is positive; then probe `autoexecdata` by writing the pattern
0b101010101010 (0xAAA) to `abstractauto` (0x18), reading it back, setting
`support_autoexecdata` when the data field kept the pattern, and finally
writing back the read-back value with its data field cleared. -/
def rvdbg_select_mem_and_csr_access_impl (h : RVHandle) (oracle : List DmiResp) :
    Option (Int × RVHandle × List DmiResp × List DmiEv) :=
  match rvdbg_dmi_read 0x16 oracle with
  | none => none
  | some (r, cs, or1, tr1) =>
    if r < 0 then some (-1, h, or1, tr1)
    else
      let h1 := { h with progbuf_size := (cs >>> 24) &&& 0x1F,
                         abstract_data_count := cs &&& 0xF }
      if h1.abstract_data_count < 1 ∨ 12 < h1.abstract_data_count then
        some (-1, h1, or1, tr1)
      else if 16 < h1.progbuf_size then some (-1, h1, or1, tr1)
      else if h1.progbuf_size = 1 ∧ h1.impebreak = false then some (-1, h1, or1, tr1)
      else
        let h2 := if 0 < h1.progbuf_size then { h1 with read_csr_set := true } else h1
        match rvdbg_dmi_write 0x18 (ABSTRACTAUTO_SET_DATA 0 0xAAA) or1 with
        | none => none
        | some (r2, or2, tr2) =>
          if r2 < 0 then some (-1, h2, or2, tr1 ++ tr2)
          else
            match rvdbg_dmi_read 0x18 or2 with
            | none => none
            | some (r3, abstractauto, or3, tr3) =>
              if r3 < 0 then some (-1, h2, or3, tr1 ++ tr2 ++ tr3)
              else
                let h3 := if abstractauto &&& 0xFFF = 0xAAA
                  then { h2 with support_autoexecdata := true } else h2
                match rvdbg_dmi_write 0x18 (ABSTRACTAUTO_SET_DATA abstractauto 0) or3 with
                | none => none
                | some (r4, or4, tr4) =>
                  if r4 < 0 then some (-1, h3, or4, tr1 ++ tr2 ++ tr3 ++ tr4)
                  else some (0, h3, or4, tr1 ++ tr2 ++ tr3 ++ tr4)

/-- Embedding of the `DMCONTROL_SET_HARTSEL` macro.  The third statement
`t |= (s & (0x3ff << 10) >> 4)` parses as `t |= s & ((0x3ff << 10) >> 4)`
(shift binds tighter than the surrounding &), i.e. `t |= s & 0xFFC0`;
that precedence is reproduced verbatim here. -/
def DMCONTROL_SET_HARTSEL (t s : Nat) : Nat :=
  (t &&& (0xFFFFFFFF ^^^ (0xFFFFF <<< 6))) |||
    ((s &&& 0x3FF) <<< 16) ||| (s &&& ((0x3FF <<< 10) >>> 4))

/-- Embedding of the `DMCONTROL_GET_HARTSEL` macro. -/
def DMCONTROL_GET_HARTSEL (x : Nat) : Nat :=
  ((x >>> 16) &&& 0x3FF) ||| (((x >>> 6) &&& 0x3FF) <<< 10)

/-- Loop of `rvdbg_discover_harts`: for `hart_idx` from `i0` while
`hart_idx <= hartsellen` (encoded by the fuel, `hartsellen + 1 - i0` at
entry) and `num_harts < 8` (RVDBG_MAX_HARTS), select the hart in
`dmcontrol` (0x10), read `dmstatus` (0x11) and stop at the first hart with
`anynonexistent` (bit 14); each existing hart increments `num_harts`.
Returns (err, final hart_idx, final num_harts, oracle, trace). -/
def rvdbg_discover_harts_loop :
    Nat → Nat → Nat → List DmiResp →
    Option (Int × Nat × Nat × List DmiResp × List DmiEv)
  | 0, i, num_harts, oracle => some (0, i, num_harts, oracle, [])
  | fuel + 1, i, num_harts, oracle =>
    if 8 ≤ num_harts then some (0, i, num_harts, oracle, [])
    else
      match rvdbg_dmi_write 0x10 (DMCONTROL_SET_HARTSEL 0 i) oracle with
      | none => none
      | some (r1, or1, tr1) =>
        if r1 < 0 then some (-1, i, num_harts, or1, tr1)
        else
          match rvdbg_dmi_read 0x11 or1 with
          | none => none
          | some (r2, dmstatus, or2, tr2) =>
            if r2 < 0 then some (-1, i, num_harts, or2, tr1 ++ tr2)
            else if (dmstatus >>> 14) &&& 0x1 = 1 then
              some (0, i, num_harts, or2, tr1 ++ tr2)
            else
              match rvdbg_discover_harts_loop fuel (i + 1) (num_harts + 1) or2 with
              | none => none
              | some (r3, i3, n3, or3, tr3) => some (r3, i3, n3, or3, tr1 ++ tr2 ++ tr3)

/-- Embedding of `rvdbg_discover_harts`: write `hartsel = 0xFFFFF` to
`dmcontrol`, read it back to learn `hartsellen`, iterate the discovery
loop from index 0, then issue the final `dmcontrol` write with
`hartsel = hart_idx` (the loop exit value) and set `current_hart` to
index 0 of the hart array.  Returns (err, final hart_idx, num_harts,
current_hart index, oracle, trace). -/
def rvdbg_discover_harts (num_harts0 : Nat) (oracle : List DmiResp) :
    Option (Int × Nat × Nat × Nat × List DmiResp × List DmiEv) :=
  match rvdbg_dmi_write 0x10 (DMCONTROL_SET_HARTSEL 0 0xFFFFF) oracle with
  | none => none
  | some (r1, or1, tr1) =>
    if r1 < 0 then some (-1, 0, num_harts0, 0, or1, tr1)
    else
      match rvdbg_dmi_read 0x10 or1 with
      | none => none
      | some (r2, dmcontrol, or2, tr2) =>
        if r2 < 0 then some (-1, 0, num_harts0, 0, or2, tr1 ++ tr2)
        else
          let hartsellen := DMCONTROL_GET_HARTSEL dmcontrol
          match rvdbg_discover_harts_loop (hartsellen + 1) 0 num_harts0 or2 with
          | none => none
          | some (r3, hart_idx, num_harts, or3, tr3) =>
            if r3 < 0 then some (-1, hart_idx, num_harts, 0, or3, tr1 ++ tr2 ++ tr3)
            else
              match rvdbg_dmi_write 0x10 (DMCONTROL_SET_HARTSEL 0 hart_idx) or3 with
              | none => none
              | some (r4, or4, tr4) =>
                if r4 < 0 then
                  some (-1, hart_idx, num_harts, 0, or4, tr1 ++ tr2 ++ tr3 ++ tr4)
                else some (0, hart_idx, num_harts, 0, or4, tr1 ++ tr2 ++ tr3 ++ tr4)

/-- C4 (code bug): with a response sequence in which the abstract command
completes with cmderr NONE (command write accepted, `abstractcs` reads
back 0, i.e. busy = 0 and cmderr = 0), `rvdbg_progbuf_exec` still returns
-1 and issues no further DMI operation (no output-register reads, no
restore), because the source's cmderr switch returns -1 in every case
including NONE.  The second conjunct records that the cmderr extracted
from the abstractcs value 0 is indeed NONE (0). -/
theorem progbuf_exec_returns_error_on_cmderr_none :
    rvdbg_progbuf_exec false (fun _ => 0) 0 0 [DmiResp.ok 0, DmiResp.ok 0] =
      some (-1, [], [], [DmiEv.write 0x17 0x40000, DmiEv.read 0x16]) ∧
    ((0 : Nat) >>> 8) &&& 0x7 = 0 :=
  ⟨rfl, rfl⟩

/-- C6 (code bug): an accepted buffer of length 1 (progbuf_size 4, no
impebreak, so `1 <= 4 + 0` and the guard accepts) results in zero DMI
writes and return 0, because the upload loop index starts at
`DMI_REG_PROGRAMBUF_BEGIN` (0x20) instead of 0 and `0x20 < 1` fails
immediately; the claim expects exactly one write of word 0 to register
0x20. -/
theorem progbuf_upload_accepted_issues_no_writes :
    rvdbg_progbuf_upload 4 false (fun i => 100 + i) 1 [] = some (0, [], []) ∧
    1 ≤ 4 + (if false then 1 else 0) :=
  ⟨rfl, by decide⟩

/-- C9 (code bug): a successful discovery run (hartsellen 1, hart 0
exists, hart 1 nonexistent) ends with a final `dmcontrol` write whose
`hartsel` field is the loop exit index 1, not 0, even though
`current_hart` is set to index 0 of the hart array; the final trace event
is `write 0x10 0x10000` and `DMCONTROL_GET_HARTSEL 0x10000 = 1 ≠ 0`. -/
theorem discover_harts_final_hartsel_nonzero :
    rvdbg_discover_harts 0
        [DmiResp.ok 0, DmiResp.ok 0x10000, DmiResp.ok 0, DmiResp.ok 0,
         DmiResp.ok 0, DmiResp.ok 0x4000, DmiResp.ok 0] =
      some (0, 1, 1, 0, [],
        [DmiEv.write 0x10 0x3FFFFC0, DmiEv.read 0x10, DmiEv.write 0x10 0,
         DmiEv.read 0x11, DmiEv.write 0x10 0x10000, DmiEv.read 0x11,
         DmiEv.write 0x10 0x10000]) ∧
    DMCONTROL_GET_HARTSEL 0x10000 = 1 ∧ (1 : Nat) ≠ 0 :=
  ⟨rfl, by decide, by decide⟩

/-- C8 counterexample: with the `abstractauto` readback 0x10000AAA (data
field equal to the pattern, but a nonzero upper bit), the probe accepts
the feature yet finishes by writing 0x10000000 — not zero — back to
`abstractauto`, because the source clears only the data field of the
read-back value.  So the claim that the probe "writes the abstractauto
register back to zero (so abstractauto reads as 0 afterward)" is false. -/
theorem autoexec_probe_writeback_nonzero_cex :
    rvdbg_select_mem_and_csr_access_impl
        { impebreak := false, progbuf_size := 0, abstract_data_count := 0,
          read_csr_set := false, support_autoexecdata := false }
        [DmiResp.ok 1, DmiResp.ok 0, DmiResp.ok 0x10000AAA, DmiResp.ok 0] =
      some (0,
        { impebreak := false, progbuf_size := 0, abstract_data_count := 1,
          read_csr_set := false, support_autoexecdata := true },
        [],
        [DmiEv.read 0x16, DmiEv.write 0x18 0xAAA, DmiEv.read 0x18,
         DmiEv.write 0x18 0x10000000]) ∧
    (0x10000000 : Nat) ≠ 0 ∧ (0x10000AAA : Nat) &&& 0xFFF = 0xAAA :=
  ⟨rfl, by decide, by decide⟩

/-- C10 counterexample: a call of `rvdbg_read_regs` that arms autoexec
(len 2, support on) but whose arming `abstractauto` write fails returns
-1 immediately; the trace contains only the arming write and no DMI write
setting the `abstractauto` data field to 0. -/
theorem regs_batch_arm_fail_no_disarm_cex :
    rvdbg_read_regs true 0x1001 2 [DmiResp.fail] =
      some (-1, [], [], [DmiEv.write 0x18 0xAAA]) ∧
    DmiEv.write 0x18 0 ∉ [DmiEv.write 0x18 0xAAA] :=
  ⟨rfl, by decide⟩

/-- Helper: the upload loop only ever returns -1 after issuing at least
one DMI write, so its trace is nonempty in that case. -/
theorem progbuf_upload_loop_err_nonempty (buffer : Nat → Nat) (fuel i : Nat)
    (oracle or' : List DmiResp) (r : Int) (tr : List DmiEv)
    (h : rvdbg_progbuf_upload_loop buffer fuel i oracle = some (r, or', tr))
    (hr : r = -1) : tr ≠ [] := by
  cases fuel with
  | zero =>
    simp [rvdbg_progbuf_upload_loop] at h
    omega
  | succ fuel =>
    rw [rvdbg_progbuf_upload_loop.eq_def] at h
    simp only at h
    cases oracle with
    | nil => simp [rvdbg_dmi_write] at h
    | cons rsp rest =>
      cases rsp <;> simp only [rvdbg_dmi_write] at h <;>
        (try split at h) <;> (try split at h) <;>
        first
          | omega
          | exact Option.noConfusion h
          | (try simp only [Option.some.injEq, Prod.mk.injEq] at h
             obtain ⟨h1, h2, h3⟩ := h
             intro hnil
             rw [← h3] at hnil
             simp at hnil)

/-- C5: `rvdbg_progbuf_upload` rejects — returns -1 with the oracle
untouched and no DMI write issued — exactly when
`len > progbuf_size + (impebreak ? 1 : 0)`; otherwise it does not reject
but proceeds to the upload loop. -/
theorem progbuf_upload_reject_condition (progbuf_size : Nat) (impebreak : Bool)
    (buffer : Nat → Nat) (buffer_len : Nat) (oracle : List DmiResp) :
    (rvdbg_progbuf_upload progbuf_size impebreak buffer buffer_len oracle =
        some (-1, oracle, []) ↔
      progbuf_size + (if impebreak then 1 else 0) < buffer_len)
    ∧ (buffer_len ≤ progbuf_size + (if impebreak then 1 else 0) →
        rvdbg_progbuf_upload progbuf_size impebreak buffer buffer_len oracle =
          rvdbg_progbuf_upload_loop buffer (buffer_len - 0x20) 0x20 oracle) := by
  constructor
  · constructor
    · intro h
      by_contra hnot
      rw [rvdbg_progbuf_upload, if_neg hnot] at h
      exact progbuf_upload_loop_err_nonempty buffer (buffer_len - 0x20) 0x20
        oracle oracle (-1) [] h rfl rfl
    · intro hgt
      rw [rvdbg_progbuf_upload, if_pos hgt]
  · intro hle
    rw [rvdbg_progbuf_upload, if_neg (by omega)]

/-- Witness for C5 at concrete inputs: length 5 with capacity 4 is
rejected without DMI traffic; length 3 is accepted and handed to the
upload loop. -/
theorem progbuf_upload_reject_condition_witness :
    rvdbg_progbuf_upload 4 false (fun _ => 0) 5 [] = some (-1, [], []) ∧
    rvdbg_progbuf_upload 4 false (fun _ => 0) 3 [] =
      rvdbg_progbuf_upload_loop (fun _ => 0) (3 - 0x20) 0x20 [] :=
  ⟨(progbuf_upload_reject_condition 4 false (fun _ => 0) 5 []).1.mpr (by decide),
   (progbuf_upload_reject_condition 4 false (fun _ => 0) 3 []).2 (by decide)⟩

set_option maxHeartbeats 1600000 in
/-- C7: whenever `rvdbg_select_mem_and_csr_access_impl` succeeds on a
handle whose progbuf CSR path is not yet installed, the resulting handle
has `abstract_data_count` in 1..12 and either `progbuf_size = 0` with the
progbuf CSR path still not installed, or `progbuf_size` in 2..16, or
`progbuf_size = 1` with `impebreak`; and any probed `abstractcs` value
whose fields fall outside these ranges makes the function fail with -1
immediately after the probe read. -/
theorem select_impl_capability_invariants (h0 : RVHandle)
    (hcsr : h0.read_csr_set = false) :
    (∀ (oracle or' : List DmiResp) (h' : RVHandle) (tr : List DmiEv),
        rvdbg_select_mem_and_csr_access_impl h0 oracle = some (0, h', or', tr) →
        (1 ≤ h'.abstract_data_count ∧ h'.abstract_data_count ≤ 12) ∧
        (h'.progbuf_size = 0 ∧ h'.read_csr_set = false
          ∨ (2 ≤ h'.progbuf_size ∧ h'.progbuf_size ≤ 16)
          ∨ (h'.progbuf_size = 1 ∧ h'.impebreak = true)))
    ∧ (∀ (cs : Nat) (rest : List DmiResp),
        (((cs % 2 ^ 32) &&& 0xF < 1 ∨ 12 < (cs % 2 ^ 32) &&& 0xF)
          ∨ 16 < ((cs % 2 ^ 32) >>> 24) &&& 0x1F
          ∨ (((cs % 2 ^ 32) >>> 24) &&& 0x1F = 1 ∧ h0.impebreak = false)) →
        rvdbg_select_mem_and_csr_access_impl h0 (DmiResp.ok cs :: rest) =
          some (-1,
            { h0 with progbuf_size := ((cs % 2 ^ 32) >>> 24) &&& 0x1F,
                      abstract_data_count := (cs % 2 ^ 32) &&& 0xF },
            rest, [DmiEv.read 0x16])) := by
  constructor
  · intro oracle or' h' tr hsel
    simp only [rvdbg_select_mem_and_csr_access_impl] at hsel
    split at hsel
    · exact Option.noConfusion hsel
    · rename_i r csv or1 tr1 hread
      by_cases hr : r < 0
      · rw [if_pos hr] at hsel
        simp at hsel
      · rw [if_neg hr] at hsel
        split at hsel
        · simp at hsel
        · rename_i hdc
          split at hsel
          · simp at hsel
          · rename_i hps
            split at hsel
            · simp at hsel
            · rename_i hpi
              split at hsel
              · exact Option.noConfusion hsel
              · rename_i r2 or2 tr2 harm
                by_cases hr2 : r2 < 0
                · rw [if_pos hr2] at hsel
                  simp at hsel
                · rw [if_neg hr2] at hsel
                  split at hsel
                  · exact Option.noConfusion hsel
                  · rename_i r3 aav or3 tr3 hrb
                    by_cases hr3 : r3 < 0
                    · rw [if_pos hr3] at hsel
                      simp at hsel
                    · rw [if_neg hr3] at hsel
                      split at hsel
                      · exact Option.noConfusion hsel
                      · rename_i r4 or4 tr4 hdis
                        by_cases hr4 : r4 < 0
                        · rw [if_pos hr4] at hsel
                          simp at hsel
                        · rw [if_neg hr4] at hsel
                          simp only [Option.some.injEq, Prod.mk.injEq, true_and] at hsel
                          obtain ⟨hh, -, -⟩ := hsel
                          subst hh
                          constructor
                          · simp only [apply_ite RVHandle.abstract_data_count, ite_self]
                            omega
                          · simp only [apply_ite RVHandle.progbuf_size,
                              apply_ite RVHandle.read_csr_set,
                              apply_ite RVHandle.impebreak, ite_self]
                            by_cases hp0 : 0 < (csv >>> 24) &&& 0x1F
                            · by_cases hp1 : (csv >>> 24) &&& 0x1F = 1
                              · right; right
                                refine ⟨hp1, ?_⟩
                                cases himp : h0.impebreak with
                                | false => exact absurd ⟨hp1, himp⟩ hpi
                                | true => rfl
                              · right; left
                                constructor <;> omega
                            · left
                              constructor
                              · omega
                              · rw [if_neg hp0]
                                exact hcsr
  · intro cs rest hbad
    simp only [rvdbg_select_mem_and_csr_access_impl, rvdbg_dmi_read]
    rw [if_neg (show ¬ ((0 : Int) < 0) by decide)]
    split
    · rfl
    · split
      · rfl
      · split
        · rfl
        · rename_i hndc hnps hnpi
          rcases hbad with hb | hb | hb
          · exact absurd hb hndc
          · exact absurd hb hnps
          · exact absurd hb hnpi

/-- Witness for C7 at a concrete input: a probe value with datacount 1 and
progbufsize 0 passes init and yields the progbuf-free capability shape,
and a probe value with datacount 0 is rejected. -/
theorem select_impl_capability_invariants_witness :
    ((1 ≤ (1 : Nat) ∧ (1 : Nat) ≤ 12) ∧
      ((0 : Nat) = 0 ∧ false = false
        ∨ (2 ≤ (0 : Nat) ∧ (0 : Nat) ≤ 16)
        ∨ ((0 : Nat) = 1 ∧ false = true))) ∧
    rvdbg_select_mem_and_csr_access_impl
        { impebreak := false, progbuf_size := 0, abstract_data_count := 0,
          read_csr_set := false, support_autoexecdata := false }
        [DmiResp.ok 0x1000000, DmiResp.ok 0] =
      some (-1,
        { impebreak := false, progbuf_size := 1, abstract_data_count := 0,
          read_csr_set := false, support_autoexecdata := false },
        [DmiResp.ok 0], [DmiEv.read 0x16]) := by
  constructor
  · exact (select_impl_capability_invariants
      { impebreak := false, progbuf_size := 0, abstract_data_count := 0,
        read_csr_set := false, support_autoexecdata := false } rfl).1
      [DmiResp.ok 1, DmiResp.ok 0, DmiResp.ok 0, DmiResp.ok 0] []
      { impebreak := false, progbuf_size := 0, abstract_data_count := 1,
        read_csr_set := false, support_autoexecdata := false }
      [DmiEv.read 0x16, DmiEv.write 0x18 0xAAA, DmiEv.read 0x18, DmiEv.write 0x18 0]
      (by decide)
  · exact (select_impl_capability_invariants
      { impebreak := false, progbuf_size := 0, abstract_data_count := 0,
        read_csr_set := false, support_autoexecdata := false } rfl).2
      0x1000000 [DmiResp.ok 0] (by decide)

set_option maxHeartbeats 800000 in
/-- C8 (amended): after the `abstractauto` capability probe (given the
earlier `abstractcs` checks pass and `support_autoexecdata` is initially
false), `support_autoexecdata` is true exactly when the read-back data
field equals the written pattern 0b101010101010, and the probe finishes
by writing back the read-back `abstractauto` value with its data field
cleared to 0 (the upper read-back bits are written back unchanged, so the
register reads as 0 afterwards only when those bits read back as 0). -/
theorem autoexec_probe_support_and_writeback (h0 : RVHandle) (cs w v u : Nat)
    (hcs : cs < 2 ^ 32) (hv : v < 2 ^ 32)
    (hsupport : h0.support_autoexecdata = false)
    (hdc : ¬(cs &&& 0xF < 1 ∨ 12 < cs &&& 0xF))
    (hps : ¬(16 < (cs >>> 24) &&& 0x1F))
    (hpi : ¬((cs >>> 24) &&& 0x1F = 1 ∧ h0.impebreak = false)) :
    ∃ h' : RVHandle,
      rvdbg_select_mem_and_csr_access_impl h0
          [DmiResp.ok cs, DmiResp.ok w, DmiResp.ok v, DmiResp.ok u] =
        some (0, h', [],
          [DmiEv.read 0x16, DmiEv.write 0x18 0xAAA, DmiEv.read 0x18,
           DmiEv.write 0x18 (ABSTRACTAUTO_SET_DATA v 0 % 2 ^ 32)]) ∧
      (h'.support_autoexecdata = true ↔ v &&& 0xFFF = 0xAAA) ∧
      ABSTRACTAUTO_SET_DATA v 0 &&& 0xFFF = 0 := by
  simp only [rvdbg_select_mem_and_csr_access_impl, rvdbg_dmi_read, rvdbg_dmi_write]
  rw [Nat.mod_eq_of_lt hcs, Nat.mod_eq_of_lt hv]
  simp only [if_neg (show ¬ ((0 : Int) < 0) by decide)]
  rw [if_neg hdc, if_neg hps, if_neg hpi,
    show ABSTRACTAUTO_SET_DATA 0 0xAAA % 2 ^ 32 = 0xAAA from by decide]
  simp only [List.cons_append, List.nil_append]
  refine ⟨_, rfl, ?_, ?_⟩
  · by_cases hpat : v &&& 0xFFF = 0xAAA
    · rw [if_pos hpat]
      simp [hpat]
    · rw [if_neg hpat]
      constructor
      · intro hsup
        exfalso
        rw [apply_ite RVHandle.support_autoexecdata] at hsup
        simp only [ite_self] at hsup
        rw [hsupport] at hsup
        exact Bool.noConfusion hsup
      · intro hvv
        exact absurd hvv hpat
  · simp [ABSTRACTAUTO_SET_DATA, Nat.and_assoc,
      show (4294963200 : Nat) &&& 4095 = 0 from by decide]

/-- Witness for C8 at a concrete input: abstractcs value 1 (datacount 1,
progbufsize 0) passes the checks; the readback 0xAAA keeps the pattern,
so the feature is detected and the final write-back is 0. -/
theorem autoexec_probe_support_and_writeback_witness :
    ∃ h' : RVHandle,
      rvdbg_select_mem_and_csr_access_impl
          { impebreak := false, progbuf_size := 0, abstract_data_count := 0,
            read_csr_set := false, support_autoexecdata := false }
          [DmiResp.ok 1, DmiResp.ok 0, DmiResp.ok 0xAAA, DmiResp.ok 0] =
        some (0, h', [],
          [DmiEv.read 0x16, DmiEv.write 0x18 0xAAA, DmiEv.read 0x18,
           DmiEv.write 0x18 (ABSTRACTAUTO_SET_DATA 0xAAA 0 % 2 ^ 32)]) ∧
      (h'.support_autoexecdata = true ↔ (0xAAA : Nat) &&& 0xFFF = 0xAAA) ∧
      ABSTRACTAUTO_SET_DATA 0xAAA 0 &&& 0xFFF = 0 :=
  autoexec_probe_support_and_writeback
    { impebreak := false, progbuf_size := 0, abstract_data_count := 0,
      read_csr_set := false, support_autoexecdata := false }
    1 0 0xAAA 0 (by decide) (by decide) rfl (by decide) (by decide) (by decide)

/-- Helper: appending traces preserves "no abstractauto access". -/
theorem no_auto_append {tr1 tr2 : List DmiEv}
    (h1 : ∀ ev ∈ tr1, DmiEv.evAddr ev ≠ 0x18)
    (h2 : ∀ ev ∈ tr2, DmiEv.evAddr ev ≠ 0x18) :
    ∀ ev ∈ tr1 ++ tr2, DmiEv.evAddr ev ≠ 0x18 := by
  intro ev hev
  rcases List.mem_append.mp hev with hv | hv
  · exact h1 ev hv
  · exact h2 ev hv

/-- Helper: the trace of one `rvdbg_dmi_write` is exactly the single write
event of its arguments. -/
theorem rvdbg_dmi_write_trace (addr data : Nat) (oracle or' : List DmiResp)
    (r : Int) (tr : List DmiEv)
    (h : rvdbg_dmi_write addr data oracle = some (r, or', tr)) :
    tr = [DmiEv.write addr (data % 2 ^ 32)] := by
  cases oracle with
  | nil => exact Option.noConfusion h
  | cons rsp rest =>
    cases rsp <;> simp only [rvdbg_dmi_write, Option.some.injEq, Prod.mk.injEq] at h <;>
      exact h.2.2.symm

/-- Helper: the trace of one `rvdbg_dmi_read` is exactly the single read
event of its address. -/
theorem rvdbg_dmi_read_trace (addr : Nat) (oracle or' : List DmiResp)
    (r : Int) (v : Nat) (tr : List DmiEv)
    (h : rvdbg_dmi_read addr oracle = some (r, v, or', tr)) :
    tr = [DmiEv.read addr] := by
  cases oracle with
  | nil => exact Option.noConfusion h
  | cons rsp rest =>
    cases rsp <;> simp only [rvdbg_dmi_read, Option.some.injEq, Prod.mk.injEq] at h <;>
      exact h.2.2.2.symm

/-- Helper: a DMI write to an address other than `abstractauto` produces
no abstractauto event. -/
theorem rvdbg_dmi_write_no_auto {addr data : Nat} {oracle or' : List DmiResp}
    {r : Int} {tr : List DmiEv} (haddr : addr ≠ 0x18)
    (h : rvdbg_dmi_write addr data oracle = some (r, or', tr)) :
    ∀ ev ∈ tr, DmiEv.evAddr ev ≠ 0x18 := by
  intro ev hev
  rw [rvdbg_dmi_write_trace addr data oracle or' r tr h] at hev
  simp only [List.mem_singleton] at hev
  subst hev
  exact haddr

/-- Helper: a DMI read from an address other than `abstractauto` produces
no abstractauto event. -/
theorem rvdbg_dmi_read_no_auto {addr : Nat} {oracle or' : List DmiResp}
    {r : Int} {v : Nat} {tr : List DmiEv} (haddr : addr ≠ 0x18)
    (h : rvdbg_dmi_read addr oracle = some (r, v, or', tr)) :
    ∀ ev ∈ tr, DmiEv.evAddr ev ≠ 0x18 := by
  intro ev hev
  rw [rvdbg_dmi_read_trace addr oracle or' r v tr h] at hev
  simp only [List.mem_singleton] at hev
  subst hev
  exact haddr

/-- Helper: the abstractcs busy poll only reads register 0x16, never
touching `abstractauto`. -/
theorem rvdbg_wait_abstractcs_no_auto :
    ∀ (oracle or' : List DmiResp) (r : Int) (cs : Nat) (tr : List DmiEv),
      rvdbg_wait_abstractcs oracle = some (r, cs, or', tr) →
      ∀ ev ∈ tr, DmiEv.evAddr ev ≠ 0x18 := by
  intro oracle
  induction oracle with
  | nil => intro or' r cs tr h; exact Option.noConfusion h
  | cons rsp rest ih =>
    intro or' r cs tr h
    cases rsp with
    | fail =>
      simp only [rvdbg_wait_abstractcs, Option.some.injEq, Prod.mk.injEq] at h
      intro ev hev
      rw [← h.2.2.2] at hev
      simp only [List.mem_singleton] at hev
      subst hev
      decide
    | ok v =>
      simp only [rvdbg_wait_abstractcs] at h
      split at h
      · split at h
        · exact Option.noConfusion h
        · rename_i r2 cs2 or2 tr2 hrec
          simp only [Option.some.injEq, Prod.mk.injEq] at h
          intro ev hev
          rw [← h.2.2.2] at hev
          simp only [List.mem_cons] at hev
          rcases hev with hev | hev
          · subst hev; decide
          · exact ih or2 r2 cs2 tr2 hrec ev hev
      · simp only [Option.some.injEq, Prod.mk.injEq] at h
        intro ev hev
        rw [← h.2.2.2] at hev
        simp only [List.mem_singleton] at hev
        subst hev
        decide

/-- Helper: abstract command submission only writes the command register
(0x17) and reads/writes `abstractcs` (0x16). -/
theorem rvdbg_abstract_command_run_go_no_auto (command : Nat) :
    ∀ (fuel : Nat) (oracle or' : List DmiResp) (r : Int) (tr : List DmiEv),
      rvdbg_abstract_command_run_go command fuel oracle = some (r, or', tr) →
      ∀ ev ∈ tr, DmiEv.evAddr ev ≠ 0x18 := by
  intro fuel
  induction fuel with
  | zero => intro oracle or' r tr h; exact Option.noConfusion h
  | succ fuel ih =>
    intro oracle or' r tr h
    rw [rvdbg_abstract_command_run_go] at h
    split at h
    · exact Option.noConfusion h
    · rename_i r1 or1 tr1 hw1
      by_cases hr1 : r1 < 0
      · rw [if_pos hr1] at h
        simp only [Option.some.injEq, Prod.mk.injEq] at h
        intro ev hev
        rw [← h.2.2] at hev
        exact rvdbg_dmi_write_no_auto (by decide) hw1 ev hev
      · rw [if_neg hr1] at h
        split at h
        · exact Option.noConfusion h
        · rename_i r2 cs or2 tr2 hwt
          by_cases hr2 : r2 < 0
          · rw [if_pos hr2] at h
            simp only [Option.some.injEq, Prod.mk.injEq] at h
            intro ev hev
            rw [← h.2.2] at hev
            exact no_auto_append (rvdbg_dmi_write_no_auto (by decide) hw1)
              (rvdbg_wait_abstractcs_no_auto or1 or2 r2 cs tr2 hwt) ev hev
          · rw [if_neg hr2] at h
            by_cases hcm : (cs >>> 8) &&& 0x7 ≠ 0
            · simp only [if_pos hcm] at h
              split at h
              · exact Option.noConfusion h
              · rename_i r3 or3 tr3 hw3
                by_cases hr3 : r3 < 0
                · rw [if_pos hr3] at h
                  simp only [Option.some.injEq, Prod.mk.injEq] at h
                  intro ev hev
                  rw [← h.2.2] at hev
                  exact no_auto_append (no_auto_append
                      (rvdbg_dmi_write_no_auto (by decide) hw1)
                      (rvdbg_wait_abstractcs_no_auto or1 or2 r2 cs tr2 hwt))
                    (rvdbg_dmi_write_no_auto (by decide) hw3) ev hev
                · rw [if_neg hr3] at h
                  by_cases hcm1 : (cs >>> 8) &&& 0x7 = 1
                  · simp only [if_pos hcm1] at h
                    split at h
                    · exact Option.noConfusion h
                    · rename_i r4 or4 tr4 hrec
                      simp only [Option.some.injEq, Prod.mk.injEq] at h
                      intro ev hev
                      rw [← h.2.2] at hev
                      exact no_auto_append (no_auto_append (no_auto_append
                          (rvdbg_dmi_write_no_auto (by decide) hw1)
                          (rvdbg_wait_abstractcs_no_auto or1 or2 r2 cs tr2 hwt))
                          (rvdbg_dmi_write_no_auto (by decide) hw3))
                        (ih or3 or4 r4 tr4 hrec) ev hev
                  · simp only [if_neg hcm1] at h
                    simp only [Option.some.injEq, Prod.mk.injEq] at h
                    intro ev hev
                    rw [← h.2.2] at hev
                    exact no_auto_append (no_auto_append
                        (rvdbg_dmi_write_no_auto (by decide) hw1)
                        (rvdbg_wait_abstractcs_no_auto or1 or2 r2 cs tr2 hwt))
                      (rvdbg_dmi_write_no_auto (by decide) hw3) ev hev
            · simp only [if_neg hcm] at h
              simp only [Option.some.injEq, Prod.mk.injEq] at h
              intro ev hev
              rw [← h.2.2] at hev
              exact no_auto_append (rvdbg_dmi_write_no_auto (by decide) hw1)
                (rvdbg_wait_abstractcs_no_auto or1 or2 r2 cs tr2 hwt) ev hev

/-- Helper: `rvdbg_abstract_command_run` never touches `abstractauto`. -/
theorem rvdbg_abstract_command_run_no_auto (command : Nat)
    (oracle or' : List DmiResp) (r : Int) (tr : List DmiEv)
    (h : rvdbg_abstract_command_run command oracle = some (r, or', tr)) :
    ∀ ev ∈ tr, DmiEv.evAddr ev ≠ 0x18 :=
  rvdbg_abstract_command_run_go_no_auto command (oracle.length + 1) oracle or' r tr h

/-- Helper: the data-phase of a single register read touches only `data0`
(0x04) and `abstractcs` (0x16). -/
theorem rvdbg_read_single_reg_tail_no_auto (astate : AUTOEXEC_STATE)
    (oracle or' : List DmiResp) (r : Int) (v : Nat) (tr : List DmiEv)
    (h : rvdbg_read_single_reg_tail astate oracle = some (r, v, or', tr)) :
    ∀ ev ∈ tr, DmiEv.evAddr ev ≠ 0x18 := by
  simp only [rvdbg_read_single_reg_tail] at h
  split at h
  · exact Option.noConfusion h
  · rename_i r1 v1 or1 tr1 hrd
    by_cases hr1 : r1 < 0
    · rw [if_pos hr1] at h
      simp only [Option.some.injEq, Prod.mk.injEq] at h
      intro ev hev
      rw [← h.2.2.2] at hev
      exact rvdbg_dmi_read_no_auto (by decide) hrd ev hev
    · rw [if_neg hr1] at h
      by_cases hc : astate = AUTOEXEC_STATE.CONT
      · rw [if_pos hc] at h
        split at h
        · exact Option.noConfusion h
        · rename_i r2 cs2 or2 tr2 hwt
          simp only [Option.some.injEq, Prod.mk.injEq] at h
          intro ev hev
          rw [← h.2.2.2] at hev
          exact no_auto_append (rvdbg_dmi_read_no_auto (by decide) hrd)
            (rvdbg_wait_abstractcs_no_auto or1 or2 r2 cs2 tr2 hwt) ev hev
      · rw [if_neg hc] at h
        simp only [Option.some.injEq, Prod.mk.injEq] at h
        intro ev hev
        rw [← h.2.2.2] at hev
        exact rvdbg_dmi_read_no_auto (by decide) hrd ev hev

/-- Helper: a single register read never touches `abstractauto`. -/
theorem rvdbg_read_single_reg_no_auto (reg_idx : Nat) (astate : AUTOEXEC_STATE)
    (oracle or' : List DmiResp) (r : Int) (v : Nat) (tr : List DmiEv)
    (h : rvdbg_read_single_reg reg_idx astate oracle = some (r, v, or', tr)) :
    ∀ ev ∈ tr, DmiEv.evAddr ev ≠ 0x18 := by
  simp only [rvdbg_read_single_reg] at h
  by_cases hc : astate = AUTOEXEC_STATE.CONT
  · rw [if_pos hc] at h
    exact rvdbg_read_single_reg_tail_no_auto astate oracle or' r v tr h
  · rw [if_neg hc] at h
    split at h
    · exact Option.noConfusion h
    · rename_i ret or1 tr1 hrun
      by_cases hret : ret < 0
      · rw [if_pos hret] at h
        simp only [Option.some.injEq, Prod.mk.injEq] at h
        intro ev hev
        rw [← h.2.2.2] at hev
        exact rvdbg_abstract_command_run_no_auto _ oracle or1 ret tr1 hrun ev hev
      · rw [if_neg hret] at h
        by_cases hret0 : ret = 0
        · rw [if_pos hret0] at h
          split at h
          · exact Option.noConfusion h
          · rename_i r2 v2 or2 tr2 htail
            simp only [Option.some.injEq, Prod.mk.injEq] at h
            intro ev hev
            rw [← h.2.2.2] at hev
            exact no_auto_append
              (rvdbg_abstract_command_run_no_auto _ oracle or1 ret tr1 hrun)
              (rvdbg_read_single_reg_tail_no_auto astate or1 or2 r2 v2 tr2 htail)
              ev hev
        · rw [if_neg hret0] at h
          simp only [Option.some.injEq, Prod.mk.injEq] at h
          intro ev hev
          rw [← h.2.2.2] at hev
          exact rvdbg_abstract_command_run_no_auto _ oracle or1 ret tr1 hrun ev hev

/-- Helper: a single register write never touches `abstractauto`. -/
theorem rvdbg_write_single_reg_no_auto (reg_id value : Nat)
    (astate : AUTOEXEC_STATE) (oracle or' : List DmiResp) (r : Int)
    (tr : List DmiEv)
    (h : rvdbg_write_single_reg reg_id value astate oracle = some (r, or', tr)) :
    ∀ ev ∈ tr, DmiEv.evAddr ev ≠ 0x18 := by
  simp only [rvdbg_write_single_reg] at h
  split at h
  · exact Option.noConfusion h
  · rename_i r0 or0 tr0 hw0
    by_cases hr0 : r0 < 0
    · rw [if_pos hr0] at h
      simp only [Option.some.injEq, Prod.mk.injEq] at h
      intro ev hev
      rw [← h.2.2] at hev
      exact rvdbg_dmi_write_no_auto (by decide) hw0 ev hev
    · rw [if_neg hr0] at h
      by_cases hc : astate = AUTOEXEC_STATE.CONT
      · rw [if_pos hc] at h
        split at h
        · exact Option.noConfusion h
        · rename_i r1 cs1 or1 tr1 hwt
          simp only [Option.some.injEq, Prod.mk.injEq] at h
          intro ev hev
          rw [← h.2.2] at hev
          exact no_auto_append (rvdbg_dmi_write_no_auto (by decide) hw0)
            (rvdbg_wait_abstractcs_no_auto or0 or1 r1 cs1 tr1 hwt) ev hev
      · rw [if_neg hc] at h
        split at h
        · exact Option.noConfusion h
        · rename_i ret or1 tr1 hrun
          by_cases hret : ret < 0
          · rw [if_pos hret] at h
            simp only [Option.some.injEq, Prod.mk.injEq] at h
            intro ev hev
            rw [← h.2.2] at hev
            exact no_auto_append (rvdbg_dmi_write_no_auto (by decide) hw0)
              (rvdbg_abstract_command_run_no_auto _ or0 or1 ret tr1 hrun) ev hev
          · rw [if_neg hret] at h
            by_cases hret0 : ret = 0
            · rw [if_pos hret0] at h
              simp only [Option.some.injEq, Prod.mk.injEq] at h
              intro ev hev
              rw [← h.2.2] at hev
              exact no_auto_append (rvdbg_dmi_write_no_auto (by decide) hw0)
                (rvdbg_abstract_command_run_no_auto _ or0 or1 ret tr1 hrun) ev hev
            · rw [if_neg hret0] at h
              simp only [Option.some.injEq, Prod.mk.injEq] at h
              intro ev hev
              rw [← h.2.2] at hev
              exact no_auto_append (rvdbg_dmi_write_no_auto (by decide) hw0)
                (rvdbg_abstract_command_run_no_auto _ or0 or1 ret tr1 hrun) ev hev

/-- Helper: the batched read loop never touches `abstractauto`. -/
theorem rvdbg_read_regs_loop_no_auto (reg_id : Nat) :
    ∀ (fuel i : Nat) (astate : AUTOEXEC_STATE) (oracle or' : List DmiResp)
      (r : Int) (vs : List Nat) (aEnd : AUTOEXEC_STATE) (tr : List DmiEv),
      rvdbg_read_regs_loop reg_id fuel i astate oracle = some (r, vs, aEnd, or', tr) →
      ∀ ev ∈ tr, DmiEv.evAddr ev ≠ 0x18 := by
  intro fuel
  induction fuel with
  | zero =>
    intro i astate oracle or' r vs aEnd tr h
    simp only [rvdbg_read_regs_loop, Option.some.injEq, Prod.mk.injEq] at h
    intro ev hev
    rw [← h.2.2.2.2] at hev
    simp at hev
  | succ fuel ih =>
    intro i astate oracle or' r vs aEnd tr h
    simp only [rvdbg_read_regs_loop] at h
    split at h
    · exact Option.noConfusion h
    · rename_i r1 v1 or1 tr1 hsr
      by_cases hr1 : r1 < 0
      · rw [if_pos hr1] at h
        simp only [Option.some.injEq, Prod.mk.injEq] at h
        intro ev hev
        rw [← h.2.2.2.2] at hev
        exact rvdbg_read_single_reg_no_auto _ _ _ _ _ _ _ hsr ev hev
      · rw [if_neg hr1] at h
        split at h
        · exact Option.noConfusion h
        · rename_i r2 vs2 aEnd2 or2 tr2 hrec
          simp only [Option.some.injEq, Prod.mk.injEq] at h
          intro ev hev
          rw [← h.2.2.2.2] at hev
          exact no_auto_append (rvdbg_read_single_reg_no_auto _ _ _ _ _ _ _ hsr)
            (ih _ _ _ _ _ _ _ _ hrec) ev hev

/-- Helper: the batched write loop never touches `abstractauto`. -/
theorem rvdbg_write_regs_loop_no_auto (reg_id : Nat) (values : Nat → Nat) :
    ∀ (fuel i : Nat) (astate : AUTOEXEC_STATE) (oracle or' : List DmiResp)
      (r : Int) (aEnd : AUTOEXEC_STATE) (tr : List DmiEv),
      rvdbg_write_regs_loop reg_id values fuel i astate oracle = some (r, aEnd, or', tr) →
      ∀ ev ∈ tr, DmiEv.evAddr ev ≠ 0x18 := by
  intro fuel
  induction fuel with
  | zero =>
    intro i astate oracle or' r aEnd tr h
    simp only [rvdbg_write_regs_loop, Option.some.injEq, Prod.mk.injEq] at h
    intro ev hev
    rw [← h.2.2.2] at hev
    simp at hev
  | succ fuel ih =>
    intro i astate oracle or' r aEnd tr h
    simp only [rvdbg_write_regs_loop] at h
    split at h
    · exact Option.noConfusion h
    · rename_i r1 or1 tr1 hsr
      by_cases hr1 : r1 < 0
      · rw [if_pos hr1] at h
        simp only [Option.some.injEq, Prod.mk.injEq] at h
        intro ev hev
        rw [← h.2.2.2] at hev
        exact rvdbg_write_single_reg_no_auto _ _ _ _ _ _ _ hsr ev hev
      · rw [if_neg hr1] at h
        split at h
        · exact Option.noConfusion h
        · rename_i r2 aEnd2 or2 tr2 hrec
          simp only [Option.some.injEq, Prod.mk.injEq] at h
          intro ev hev
          rw [← h.2.2.2] at hev
          exact no_auto_append (rvdbg_write_single_reg_no_auto _ _ _ _ _ _ _ hsr)
            (ih _ _ _ _ _ _ _ hrec) ev hev

/-- Helper: the read loop ends in the NONE autoexec state exactly when it
started there (INIT moves to CONT and never back). -/
theorem rvdbg_read_regs_loop_astate (reg_id : Nat) :
    ∀ (fuel i : Nat) (astate : AUTOEXEC_STATE) (oracle or' : List DmiResp)
      (r : Int) (vs : List Nat) (aEnd : AUTOEXEC_STATE) (tr : List DmiEv),
      rvdbg_read_regs_loop reg_id fuel i astate oracle = some (r, vs, aEnd, or', tr) →
      (aEnd = AUTOEXEC_STATE.NONE ↔ astate = AUTOEXEC_STATE.NONE) := by
  intro fuel
  induction fuel with
  | zero =>
    intro i astate oracle or' r vs aEnd tr h
    simp only [rvdbg_read_regs_loop, Option.some.injEq, Prod.mk.injEq] at h
    rw [← h.2.2.1]
  | succ fuel ih =>
    intro i astate oracle or' r vs aEnd tr h
    simp only [rvdbg_read_regs_loop] at h
    split at h
    · exact Option.noConfusion h
    · rename_i r1 v1 or1 tr1 hsr
      by_cases hr1 : r1 < 0
      · rw [if_pos hr1] at h
        simp only [Option.some.injEq, Prod.mk.injEq] at h
        rw [← h.2.2.1]
      · rw [if_neg hr1] at h
        split at h
        · exact Option.noConfusion h
        · rename_i r2 vs2 aEnd2 or2 tr2 hrec
          simp only [Option.some.injEq, Prod.mk.injEq] at h
          have hiff := ih _ _ _ _ _ _ _ _ hrec
          rw [← h.2.2.1]
          cases astate <;> simp_all

/-- Helper: the write loop ends in the NONE autoexec state exactly when it
started there. -/
theorem rvdbg_write_regs_loop_astate (reg_id : Nat) (values : Nat → Nat) :
    ∀ (fuel i : Nat) (astate : AUTOEXEC_STATE) (oracle or' : List DmiResp)
      (r : Int) (aEnd : AUTOEXEC_STATE) (tr : List DmiEv),
      rvdbg_write_regs_loop reg_id values fuel i astate oracle = some (r, aEnd, or', tr) →
      (aEnd = AUTOEXEC_STATE.NONE ↔ astate = AUTOEXEC_STATE.NONE) := by
  intro fuel
  induction fuel with
  | zero =>
    intro i astate oracle or' r aEnd tr h
    simp only [rvdbg_write_regs_loop, Option.some.injEq, Prod.mk.injEq] at h
    rw [← h.2.1]
  | succ fuel ih =>
    intro i astate oracle or' r aEnd tr h
    simp only [rvdbg_write_regs_loop] at h
    split at h
    · exact Option.noConfusion h
    · rename_i r1 or1 tr1 hsr
      by_cases hr1 : r1 < 0
      · rw [if_pos hr1] at h
        simp only [Option.some.injEq, Prod.mk.injEq] at h
        rw [← h.2.1]
      · rw [if_neg hr1] at h
        split at h
        · exact Option.noConfusion h
        · rename_i r2 aEnd2 or2 tr2 hrec
          simp only [Option.some.injEq, Prod.mk.injEq] at h
          have hiff := ih _ _ _ _ _ _ _ hrec
          rw [← h.2.1]
          cases astate <;> simp_all

/-- Helper: when the read batch was armed (loop entered in INIT state),
the post-loop disarm write of `abstractauto` data 0 is always issued. -/
theorem rvdbg_read_regs_main_disarm (reg_id len : Nat)
    (oracle or' : List DmiResp) (tr0 : List DmiEv) (r : Int) (vs : List Nat)
    (tr : List DmiEv)
    (h : rvdbg_read_regs_main reg_id len AUTOEXEC_STATE.INIT oracle tr0 =
      some (r, vs, or', tr)) :
    DmiEv.write 0x18 0 ∈ tr := by
  simp only [rvdbg_read_regs_main] at h
  split at h
  · exact Option.noConfusion h
  · rename_i r1 vs1 aEnd or1 tr1 hloop
    have haE : ¬(aEnd = AUTOEXEC_STATE.NONE) := by
      intro hn
      exact AUTOEXEC_STATE.noConfusion
        ((rvdbg_read_regs_loop_astate reg_id len 0 _ oracle or1 r1 vs1 aEnd tr1 hloop).mp hn)
    rw [if_pos haE] at h
    split at h
    · exact Option.noConfusion h
    · rename_i r2 or2 tr2 hw
      simp only [Option.some.injEq, Prod.mk.injEq] at h
      have htr2 : tr2 = [DmiEv.write 0x18 0] := by
        have hsh := rvdbg_dmi_write_trace 0x18 (ABSTRACTAUTO_SET_DATA 0 0) or1 or2 r2 tr2 hw
        simpa using hsh
      rw [← h.2.2.2, htr2]
      simp

/-- Helper: a read batch run entirely in the NONE autoexec state never
touches `abstractauto`. -/
theorem rvdbg_read_regs_main_none_no_auto (reg_id len : Nat)
    (oracle or' : List DmiResp) (r : Int) (vs : List Nat) (tr : List DmiEv)
    (h : rvdbg_read_regs_main reg_id len AUTOEXEC_STATE.NONE oracle [] =
      some (r, vs, or', tr)) :
    ∀ ev ∈ tr, DmiEv.evAddr ev ≠ 0x18 := by
  simp only [rvdbg_read_regs_main] at h
  split at h
  · exact Option.noConfusion h
  · rename_i r1 vs1 aEnd or1 tr1 hloop
    have haE : aEnd = AUTOEXEC_STATE.NONE :=
      (rvdbg_read_regs_loop_astate reg_id len 0 _ oracle or1 r1 vs1 aEnd tr1 hloop).mpr rfl
    rw [if_neg (by simp [haE])] at h
    simp only [Option.some.injEq, Prod.mk.injEq] at h
    intro ev hev
    rw [← h.2.2.2] at hev
    exact rvdbg_read_regs_loop_no_auto reg_id len 0 _ oracle or1 r1 vs1 aEnd tr1 hloop
      ev (by simpa using hev)

/-- Helper: when the write batch was armed, the post-loop disarm write of
`abstractauto` data 0 is always issued. -/
theorem rvdbg_write_regs_main_disarm (reg_id : Nat) (values : Nat → Nat)
    (len : Nat) (oracle or' : List DmiResp) (tr0 : List DmiEv) (r : Int)
    (tr : List DmiEv)
    (h : rvdbg_write_regs_main reg_id values len AUTOEXEC_STATE.INIT oracle tr0 =
      some (r, or', tr)) :
    DmiEv.write 0x18 0 ∈ tr := by
  simp only [rvdbg_write_regs_main] at h
  split at h
  · exact Option.noConfusion h
  · rename_i r1 aEnd or1 tr1 hloop
    have haE : ¬(aEnd = AUTOEXEC_STATE.NONE) := by
      intro hn
      exact AUTOEXEC_STATE.noConfusion
        ((rvdbg_write_regs_loop_astate reg_id values len 0 _ oracle or1 r1 aEnd tr1 hloop).mp hn)
    rw [if_pos haE] at h
    split at h
    · exact Option.noConfusion h
    · rename_i r2 or2 tr2 hw
      simp only [Option.some.injEq, Prod.mk.injEq] at h
      have htr2 : tr2 = [DmiEv.write 0x18 0] := by
        have hsh := rvdbg_dmi_write_trace 0x18 (ABSTRACTAUTO_SET_DATA 0 0) or1 or2 r2 tr2 hw
        simpa using hsh
      rw [← h.2.2, htr2]
      simp

/-- Helper: a write batch run entirely in the NONE autoexec state never
touches `abstractauto`. -/
theorem rvdbg_write_regs_main_none_no_auto (reg_id : Nat) (values : Nat → Nat)
    (len : Nat) (oracle or' : List DmiResp) (r : Int) (tr : List DmiEv)
    (h : rvdbg_write_regs_main reg_id values len AUTOEXEC_STATE.NONE oracle [] =
      some (r, or', tr)) :
    ∀ ev ∈ tr, DmiEv.evAddr ev ≠ 0x18 := by
  simp only [rvdbg_write_regs_main] at h
  split at h
  · exact Option.noConfusion h
  · rename_i r1 aEnd or1 tr1 hloop
    have haE : aEnd = AUTOEXEC_STATE.NONE :=
      (rvdbg_write_regs_loop_astate reg_id values len 0 _ oracle or1 r1 aEnd tr1 hloop).mpr rfl
    rw [if_neg (by simp [haE])] at h
    simp only [Option.some.injEq, Prod.mk.injEq] at h
    intro ev hev
    rw [← h.2.2] at hev
    exact rvdbg_write_regs_loop_no_auto reg_id values len 0 _ oracle or1 r1 aEnd tr1 hloop
      ev (by simpa using hev)

/-- C10 (amended): for every call to `rvdbg_read_regs` or
`rvdbg_write_regs` that arms autoexec (len > 1 and support_autoexecdata)
and whose initial abstractauto arming write does not fail at the DMI
level, a DMI write setting the abstractauto data field to 0 is issued
before returning (including when a single-register access inside the loop
fails mid-batch); batches of length 1 or on targets without autoexecdata
never touch the abstractauto register. -/
theorem regs_batch_disarm_guarantee :
    ∀ (support : Bool) (reg_id len : Nat) (values : Nat → Nat)
      (v : Nat) (oracle rest : List DmiResp),
      (∀ (r : Int) (vs : List Nat) (or' : List DmiResp) (tr : List DmiEv),
        rvdbg_read_regs support reg_id len oracle = some (r, vs, or', tr) →
        ((1 < len ∧ support = true ∧ oracle = DmiResp.ok v :: rest) →
          DmiEv.write 0x18 0 ∈ tr)
        ∧ ((len ≤ 1 ∨ support = false) → ∀ ev ∈ tr, DmiEv.evAddr ev ≠ 0x18))
      ∧ (∀ (r : Int) (or' : List DmiResp) (tr : List DmiEv),
        rvdbg_write_regs support reg_id values len oracle = some (r, or', tr) →
        ((1 < len ∧ support = true ∧ oracle = DmiResp.ok v :: rest) →
          DmiEv.write 0x18 0 ∈ tr)
        ∧ ((len ≤ 1 ∨ support = false) → ∀ ev ∈ tr, DmiEv.evAddr ev ≠ 0x18)) := by
  intro support reg_id len values v oracle rest
  constructor
  · intro r vs or' tr h
    constructor
    · rintro ⟨hlen, hsup, horacle⟩
      subst horacle
      simp only [rvdbg_read_regs] at h
      rw [if_pos ⟨hlen, hsup⟩] at h
      simp only [rvdbg_dmi_write] at h
      rw [if_neg (show ¬ ((0 : Int) < 0) by decide)] at h
      exact rvdbg_read_regs_main_disarm reg_id len rest or'
        [DmiEv.write 0x18 (ABSTRACTAUTO_SET_DATA 0 0xAAA % 2 ^ 32)] r vs tr h
    · intro hun
      have hcond : ¬(1 < len ∧ support = true) := by
        rcases hun with hl | hs
        · intro hc; omega
        · intro hc; rw [hs] at hc; exact Bool.noConfusion hc.2
      simp only [rvdbg_read_regs] at h
      rw [if_neg hcond] at h
      exact rvdbg_read_regs_main_none_no_auto reg_id len oracle or' r vs tr h
  · intro r or' tr h
    constructor
    · rintro ⟨hlen, hsup, horacle⟩
      subst horacle
      simp only [rvdbg_write_regs] at h
      rw [if_pos ⟨hlen, hsup⟩] at h
      simp only [rvdbg_dmi_write] at h
      rw [if_neg (show ¬ ((0 : Int) < 0) by decide)] at h
      exact rvdbg_write_regs_main_disarm reg_id values len rest or'
        [DmiEv.write 0x18 (ABSTRACTAUTO_SET_DATA 0 0xAAA % 2 ^ 32)] r tr h
    · intro hun
      have hcond : ¬(1 < len ∧ support = true) := by
        rcases hun with hl | hs
        · intro hc; omega
        · intro hc; rw [hs] at hc; exact Bool.noConfusion hc.2
      simp only [rvdbg_write_regs] at h
      rw [if_neg hcond] at h
      exact rvdbg_write_regs_main_none_no_auto reg_id values len oracle or' r tr h

/-- Witness for C10 at a concrete input: a successful armed batch read of
two registers ends with the disarm write of abstractauto data 0. -/
theorem regs_batch_disarm_guarantee_witness :
    DmiEv.write 0x18 0 ∈
      [DmiEv.write 0x18 0xAAA, DmiEv.write 0x17 0x2A1001, DmiEv.read 0x16,
       DmiEv.read 0x04, DmiEv.read 0x04, DmiEv.read 0x16, DmiEv.write 0x18 0] :=
  ((regs_batch_disarm_guarantee true 0x1001 2 (fun _ => 0) 0
      [DmiResp.ok 0, DmiResp.ok 0, DmiResp.ok 0, DmiResp.ok 7, DmiResp.ok 8,
       DmiResp.ok 0, DmiResp.ok 0]
      [DmiResp.ok 0, DmiResp.ok 0, DmiResp.ok 7, DmiResp.ok 8,
       DmiResp.ok 0, DmiResp.ok 0]).1
    0 [7, 8] []
    [DmiEv.write 0x18 0xAAA, DmiEv.write 0x17 0x2A1001, DmiEv.read 0x16,
     DmiEv.read 0x04, DmiEv.read 0x04, DmiEv.read 0x16, DmiEv.write 0x18 0]
    rfl).1 ⟨by decide, rfl, rfl⟩
